import Mathlib

/-!
# Easy-KME key-distribution core: shallow embedding and verification

This file embeds the key lifecycle and authorization core of the Easy-KME
server (`src/services/key_service.py`, `src/services/auth_service.py`,
`src/services/storage_service.py`, `src/models/data_models.py`,
`src/models/api_models.py`) into Lean and proves the behavioural claims of
the specification against it.

Modelling conventions:
* File-based storage (`StorageService`) is modelled as an in-memory
  `Storage` record threaded through the operations; a Python function that
  writes via `save_keys` / `save_sessions` returns the updated `Storage`,
  a read-only function returns it unchanged.
* Randomness (`secrets.token_bytes`, `uuid.uuid4`) is abstracted as a
  `supply : Nat → String × String` of (key id, base64 material) pairs,
  consumed left to right; a `genCount` counter in `World` records how many
  supply entries were consumed.  Freshness/uniqueness of UUIDs becomes an
  injectivity hypothesis on `supply`.
* The Python services report failure by returning `None` after logging a
  branch-specific error message; each distinct failure branch is tagged
  with a `KmeError` constructor matching the spec's error taxonomy so that
  failure classes are distinguishable in statements.
* Timestamp fields (`created_at`, `expires_at`, `last_refill`, `last_seen`)
  are omitted: no verified claim observes them and they come from wall
  clock time.  `Session.session_id` (a fresh uuid no claim observes) is
  modelled as the constant `""`.
-/

/-- Error classes of the spec's taxonomy; each constructor corresponds to a
distinct `return None` branch (with its own log message) in the source. -/
inductive KmeError where
  | validation
  | poolExhausted
  | notFound
  | authorization
deriving Repr, DecidableEq

/-- Internal key storage model (`data_models.Key`). -/
structure Key where
  key_id : String
  key_material : String
  key_size : Nat
  is_used : Bool := false
  master_sae_id : Option String := none
  slave_sae_ids : List String := []
deriving Repr, DecidableEq

/-- Key distribution session model (`data_models.Session`). -/
structure Session where
  session_id : String
  master_sae_id : String
  slave_sae_ids : List String
  key_ids : List String
  is_active : Bool := true
deriving Repr, DecidableEq

/-- SAE registration model (`data_models.SAERegistry`). -/
structure SAERegistry where
  sae_id : String
  certificate_subject : String
  certificate_serial : String
  is_active : Bool := true
deriving Repr, DecidableEq

/-- Key pool configuration and status (`data_models.KeyPool`). -/
structure KeyPool where
  current_size : Nat
  max_size : Nat
  key_size : Nat
  refill_threshold : Nat := 100
deriving Repr, DecidableEq

/-- The contents of the four JSON files managed by `StorageService`. -/
structure Storage where
  keys : List Key
  sessions : List Session
  sae_registry : List SAERegistry
  key_pool : KeyPool
deriving Repr, DecidableEq

/-- Storage plus the count of random (id, material) pairs consumed so far. -/
structure World where
  storage : Storage
  genCount : Nat
deriving Repr, DecidableEq

/-- Configured limits (`config.Settings`), restricted to the fields the key
service reads. -/
structure Settings where
  key_size : Nat := 256
  key_pool_size : Nat := 1000
  max_key_per_request : Nat := 128
  key_max_size : Nat := 1024
  key_min_size : Nat := 8
  max_sae_id_count : Nat := 8
deriving Repr, DecidableEq

/-- Internal key request model (`api_models.KeyRequest`).  `number` is
always an integer in every call the repository makes (the routes pass
`number or 1`), so it is a plain `Nat`; `size` keeps its `Optional`
type.  A `None` value of `additional_slave_sae_ids` is observed by the
service only through Python truthiness, which identifies it with `[]`. -/
structure KeyRequest where
  number : Nat := 1
  size : Option Nat := some 256
  additional_slave_sae_ids : List String := []
deriving Repr, DecidableEq

/-- Individual key of an API response (`api_models.Key`). -/
structure APIKey where
  key_id : String
  key_material : String
  key_size : Nat
deriving Repr, DecidableEq

/-- Response container (`api_models.KeyContainer`). -/
structure KeyContainer where
  keys : List APIKey
  key_number : Nat
  key_size : Nat
deriving Repr, DecidableEq

/-- Projection of a stored key into an API response key, as built in
`get_keys_for_master_sae` / `get_keys_for_slave_sae`. -/
def toAPIKey (k : Key) : APIKey :=
  { key_id := k.key_id, key_material := k.key_material, key_size := k.key_size }

/-- Python truthiness of an `Optional[str]`: `None` and `""` are falsy. -/
def strOptFalsy : Option String → Bool
  | none => true
  | some s => s.isEmpty

/-- The selection predicate of `get_keys_for_master_sae` line 112:
`not k.is_used and not k.master_sae_id`. -/
def availPred (k : Key) : Bool :=
  !k.is_used && strOptFalsy k.master_sae_id

/-- `KeyService.generate_key`: one fresh (uuid, base64 material) pair,
drawn from the abstract randomness supply. -/
def generate_key (supply : Nat → String × String) (i : Nat) : String × String :=
  supply i

/-- `KeyService.generate_keys`: `n` fresh unused keys of the given size,
consuming supply entries `start, start+1, ...`. -/
def generate_keys (supply : Nat → String × String) (start n size : Nat) :
    List Key :=
  (List.range n).map fun i =>
    { key_id := (generate_key supply (start + i)).1
      key_material := (generate_key supply (start + i)).2
      key_size := size
      is_used := false
      master_sae_id := none
      slave_sae_ids := [] }

/-- `KeyService.refill_key_pool`: if the stored pool counter
`current_size` is at least `refill_threshold`, do nothing; otherwise
generate `max_size - current_size` keys of the pool's key size, append
them to the stored key list, and reset `current_size` to the total list
length. -/
def refill_key_pool (supply : Nat → String × String) (w : World) : World :=
  let pool := w.storage.key_pool
  if pool.refill_threshold ≤ pool.current_size then w
  else
    let t := pool.max_size - pool.current_size
    let allKeys := w.storage.keys ++ generate_keys supply w.genCount t pool.key_size
    { storage :=
        { w.storage with
            keys := allKeys
            key_pool := { pool with current_size := allKeys.length } }
      genCount := w.genCount + t }

/-- The in-place mutation applied to each selected key in
`get_keys_for_master_sae` lines 122-129: mark used and bind to the
master and the slave set `[slave] + additional`. -/
def markKey (master slave : String) (additional : List String) (k : Key) : Key :=
  { k with is_used := true
           master_sae_id := some master
           slave_sae_ids := slave :: additional }

/-- Apply `f` in place to the first `n` elements satisfying `p`, leaving
all other elements unchanged: the effect of mutating the objects
`available_keys[:n]` aliased inside `all_keys`. -/
def markFirstAvailable (p : Key → Bool) (f : Key → Key) : Nat → List Key → List Key
  | _, [] => []
  | 0, ks => ks
  | n + 1, k :: ks =>
      if p k then f k :: markFirstAvailable p f n ks
      else k :: markFirstAvailable p f (n + 1) ks

/-- The four request-limit checks of `get_keys_for_master_sae` lines
94-105, evaluated in source order; each failing check returns `None`
(here: `KmeError.validation`) before any state change. -/
def validationFails (st : Settings) (req : KeyRequest) : Bool :=
  req.size.any (fun z => z % 8 != 0) ||
  decide (st.max_key_per_request < req.number) ||
  req.size.any (fun z => z < st.key_min_size || st.key_max_size < z) ||
  decide (st.max_sae_id_count < req.additional_slave_sae_ids.length)

/-- Python `key_request.number or 1`: `0` is falsy. -/
def reqTake (req : KeyRequest) : Nat :=
  if req.number = 0 then 1 else req.number

/-- Python `key_request.size or settings.key_size`: `None` and `0` are
falsy. -/
def sizeOrDefault (st : Settings) (req : KeyRequest) : Nat :=
  match req.size with
  | none => st.key_size
  | some z => if z = 0 then st.key_size else z

/-- `selected_keys = available_keys[: key_request.number or 1]` computed
over the post-refill key list. -/
def allocSelected (supply : Nat → String × String) (req : KeyRequest)
    (w : World) : List Key :=
  (((refill_key_pool supply w).storage.keys.filter availPred).take (reqTake req))

/-- The post-mutation key list of a successful allocation: the first
`number or 1` available keys of `keys` marked and bound in place. -/
def allocMark (master_sae_id slave_sae_id : String) (req : KeyRequest)
    (keys : List Key) : List Key :=
  markFirstAvailable availPred
    (markKey master_sae_id slave_sae_id req.additional_slave_sae_ids)
    (reqTake req) keys

/-- The audit session appended by a successful allocation. -/
def allocSession (master_sae_id slave_sae_id : String) (req : KeyRequest)
    (selected : List Key) : Session :=
  { session_id := ""
    master_sae_id := master_sae_id
    slave_sae_ids := slave_sae_id :: req.additional_slave_sae_ids
    key_ids := selected.map Key.key_id
    is_active := true }

/-- `KeyService.get_keys_for_master_sae` (the `allocate` operation):
validate limits, refill the pool, select the first `number` unused
unassigned keys, mark them bound to `(master, slave :: additional)`,
append an audit session, and return the selected keys as the response
container. -/
def get_keys_for_master_sae (st : Settings) (supply : Nat → String × String)
    (master_sae_id slave_sae_id : String) (req : KeyRequest) (w : World) :
    Except KmeError KeyContainer × World :=
  if validationFails st req then (.error .validation, w)
  else
    let w1 := refill_key_pool supply w
    let available := w1.storage.keys.filter availPred
    if available.length < req.number then (.error .poolExhausted, w1)
    else
      let selected := allocSelected supply req w
      let container : KeyContainer :=
        { keys := selected.map toAPIKey
          key_number := selected.length
          key_size := sizeOrDefault st req }
      (.ok container,
       { storage :=
           { keys := allocMark master_sae_id slave_sae_id req w1.storage.keys
             sessions := w1.storage.sessions ++
               [allocSession master_sae_id slave_sae_id req selected]
             sae_registry := w1.storage.sae_registry
             key_pool := w1.storage.key_pool }
         genCount := w1.genCount })

/-- `next((k for k in all_keys if k.key_id == key_id), None)`. -/
def findKey (keys : List Key) (id : String) : Option Key :=
  keys.find? fun k => k.key_id == id

/-- The per-id lookup/authorization loop of `get_keys_for_slave_sae`
lines 177-194: any missing id fails with `notFound`; a found key whose
`slave_sae_ids` do not contain the requester, or whose `master_sae_id`
differs from the counterpart, fails with `authorization`; otherwise the
key is accumulated. -/
def lookupKeys (keys : List Key) (slave_sae_id master_sae_id : String) :
    List String → Except KmeError (List Key)
  | [] => .ok []
  | id :: rest =>
    match findKey keys id with
    | none => .error .notFound
    | some k =>
      if !(k.slave_sae_ids.contains slave_sae_id) then .error .authorization
      else if k.master_sae_id ≠ some master_sae_id then .error .authorization
      else
        match lookupKeys keys slave_sae_id master_sae_id rest with
        | .error e => .error e
        | .ok ks => .ok (k :: ks)

/-- `KeyService.get_keys_for_slave_sae` (the `retrieve` operation): look
up and authorize every requested id, then return the matching keys.  The
source performs no `save_*` call, so the world is returned unchanged. -/
def get_keys_for_slave_sae (slave_sae_id master_sae_id : String)
    (key_ids : List String) (w : World) :
    Except KmeError KeyContainer × World :=
  match lookupKeys w.storage.keys slave_sae_id master_sae_id key_ids with
  | .error e => (.error e, w)
  | .ok ks =>
      (.ok { keys := ks.map toAPIKey
             key_number := ks.length
             key_size := (ks.head?.map Key.key_size).getD 256 }, w)

/-- `AuthService.is_sae_authorized`: scan the requested ids in order;
return `false` at the first id with no stored key, `true` at the first
key whose master is `sae_id` or whose slave list contains `sae_id`,
and `false` if the list is exhausted.  (The source also loads the
session list but never reads it.) -/
def is_sae_authorized (stor : Storage) (sae_id : String) :
    List String → Bool
  | [] => false
  | id :: rest =>
    match findKey stor.keys id with
    | none => false
    | some k =>
      if k.master_sae_id = some sae_id then true
      else if k.slave_sae_ids.contains sae_id then true
      else is_sae_authorized stor sae_id rest

/-- Pydantic construction of the internal `KeyRequest`
(`api_models.KeyRequest`): `number` defaults to `1` with `ge=1`,
`size` defaults to `256` with `ge=8`; a violated bound raises
`pydantic.ValidationError` before the service runs. -/
def mkKeyRequest (number size : Option Nat) (additional : List String) :
    Except KmeError KeyRequest :=
  let n := number.getD 1
  let z := size.getD 256
  if n < 1 then .error .validation
  else if z < 8 then .error .validation
  else .ok { number := n, size := some z, additional_slave_sae_ids := additional }

/-- The full `allocate` entry as the repository composes it: construct
the validated internal request, then run the key service. -/
def allocate_api (st : Settings) (supply : Nat → String × String)
    (master_sae_id slave_sae_id : String) (number size : Option Nat)
    (additional : List String) (w : World) :
    Except KmeError KeyContainer × World :=
  match mkKeyRequest number size additional with
  | .error e => (.error e, w)
  | .ok req => get_keys_for_master_sae st supply master_sae_id slave_sae_id req w

/-- The count of unused keys (`available_keys` of `get_status`). -/
def availableKeyCount (stor : Storage) : Nat :=
  (stor.keys.filter fun k => !k.is_used).length

/-- One call into the key service, for reasoning about call sequences. -/
inductive Op where
  | alloc (master_sae_id slave_sae_id : String) (req : KeyRequest)
  | retl (slave_sae_id master_sae_id : String) (key_ids : List String)
  | refill
deriving Repr

/-- The world after one service call (result discarded). -/
def runOp (st : Settings) (supply : Nat → String × String) (w : World) :
    Op → World
  | .alloc m s req => (get_keys_for_master_sae st supply m s req w).2
  | .retl s m ids => (get_keys_for_slave_sae s m ids w).2
  | .refill => refill_key_pool supply w

/-- The world after a sequence of service calls. -/
def runTrace (st : Settings) (supply : Nat → String × String) :
    World → List Op → World
  | w, [] => w
  | w, op :: ops => runTrace st supply (runOp st supply w op) ops

/-- Reachability invariant: stored key ids are pairwise distinct and every
stored id was drawn from the consumed portion of the supply. -/
def ReachInv (supply : Nat → String × String) (w : World) : Prop :=
  (w.storage.keys.map Key.key_id).Nodup ∧
  ∀ k ∈ w.storage.keys, ∃ i, i < w.genCount ∧ (supply i).1 = k.key_id

/-! ## Concrete instances for witnesses and counterexamples -/

/-- Deterministic stand-in for the uuid/material randomness in concrete
scenarios: the i-th generated id is the string of i letters k, so distinct
indices give distinct ids. -/
def wSupply : Nat → String × String :=
  fun i => (String.mk (List.replicate i 'k'), "material")

/-- Default configured limits (`config.Settings` defaults). -/
def wSettings : Settings := {}

/-- An allocated key bound to master M with slave set [S, T]. -/
def kA : Key :=
  { key_id := "idA", key_material := "matA", key_size := 256,
    is_used := true, master_sae_id := some "M", slave_sae_ids := ["S", "T"] }

/-- An allocated key bound to master M with slave set [S]. -/
def kB : Key :=
  { key_id := "idB", key_material := "matB", key_size := 256,
    is_used := true, master_sae_id := some "M", slave_sae_ids := ["S"] }

/-- An unused pool key of 256 bits. -/
def kC : Key :=
  { key_id := "idC", key_material := "matC", key_size := 256,
    is_used := false, master_sae_id := none, slave_sae_ids := [] }

/-- A world holding two allocated keys, for retrieval scenarios. -/
def retrieveWorld : World :=
  { storage :=
      { keys := [kA, kB], sessions := [], sae_registry := []
        key_pool := { current_size := 2, max_size := 2, key_size := 256,
                      refill_threshold := 1 } }
    genCount := 0 }

/-- An empty-pool world whose counter blocks refilling, for exhaustion
scenarios. -/
def exhaustedWorld : World :=
  { storage :=
      { keys := [], sessions := [], sae_registry := []
        key_pool := { current_size := 5, max_size := 5, key_size := 256,
                      refill_threshold := 1 } }
    genCount := 0 }

/-- A fresh world that refills two keys on the first allocation. -/
def allocWorld : World :=
  { storage :=
      { keys := [], sessions := [], sae_registry := []
        key_pool := { current_size := 0, max_size := 2, key_size := 256,
                      refill_threshold := 1 } }
    genCount := 0 }

/-- A world with one unused 256-bit key and a satisfied pool counter, for
the requested-size scenario. -/
def c5World : World :=
  { storage :=
      { keys := [kC], sessions := [], sae_registry := []
        key_pool := { current_size := 5, max_size := 5, key_size := 256,
                      refill_threshold := 1 } }
    genCount := 0 }

/-- A world whose stored pool counter (10) is above the refill threshold
(5) although every stored key is already used, so the unused count is 0. -/
def c6World : World :=
  { storage :=
      { keys := [kA], sessions := [], sae_registry := []
        key_pool := { current_size := 10, max_size := 20, key_size := 256,
                      refill_threshold := 5 } }
    genCount := 0 }

/-- Concrete request for one 256-bit key shared with additional slave S1b. -/
def reqA : KeyRequest :=
  { number := 1, size := some 256, additional_slave_sae_ids := ["S1b"] }

/-- Concrete request for one 256-bit key with no additional slaves. -/
def reqB : KeyRequest :=
  { number := 1, size := some 256, additional_slave_sae_ids := [] }

/-- The container returned by allocating `reqA` from `allocWorld`. -/
def allocC : KeyContainer :=
  { keys := [{ key_id := "", key_material := "material", key_size := 256 }]
    key_number := 1, key_size := 256 }

/-- The container returned by the second allocation, of `reqB`. -/
def allocC2 : KeyContainer :=
  { keys := [{ key_id := "k", key_material := "material", key_size := 256 }]
    key_number := 1, key_size := 256 }

/-- The world after allocating `reqA` to (M1, [S1, S1b]) from `allocWorld`. -/
def allocWorld1 : World :=
  { storage :=
      { keys :=
          [{ key_id := "", key_material := "material", key_size := 256,
             is_used := true, master_sae_id := some "M1",
             slave_sae_ids := ["S1", "S1b"] },
           { key_id := "k", key_material := "material", key_size := 256,
             is_used := false, master_sae_id := none, slave_sae_ids := [] }]
        sessions := [{ session_id := "", master_sae_id := "M1",
                       slave_sae_ids := ["S1", "S1b"], key_ids := [""],
                       is_active := true }]
        sae_registry := []
        key_pool := { current_size := 2, max_size := 2, key_size := 256,
                      refill_threshold := 1 } }
    genCount := 2 }

/-- The world after further allocating `reqB` to (M2, [S2]). -/
def allocWorld2 : World :=
  { storage :=
      { keys :=
          [{ key_id := "", key_material := "material", key_size := 256,
             is_used := true, master_sae_id := some "M1",
             slave_sae_ids := ["S1", "S1b"] },
           { key_id := "k", key_material := "material", key_size := 256,
             is_used := true, master_sae_id := some "M2",
             slave_sae_ids := ["S2"] }]
        sessions := [{ session_id := "", master_sae_id := "M1",
                       slave_sae_ids := ["S1", "S1b"], key_ids := [""],
                       is_active := true },
                     { session_id := "", master_sae_id := "M2",
                       slave_sae_ids := ["S2"], key_ids := ["k"],
                       is_active := true }]
        sae_registry := []
        key_pool := { current_size := 2, max_size := 2, key_size := 256,
                      refill_threshold := 1 } }
    genCount := 2 }

/-! ## Basic lemmas about the list machinery -/

theorem wSupply_inj : ∀ i j, (wSupply i).1 = (wSupply j).1 → i = j := by
  intro i j h
  have h2 := congrArg (fun t => t.data.length) h
  simpa [wSupply] using h2

theorem markFirstAvailable_cons_pos (p : Key → Bool) (f : Key → Key)
    (a : Key) (as : List Key) (n : Nat) (h : p a = true) :
    markFirstAvailable p f (n + 1) (a :: as) = f a :: markFirstAvailable p f n as := by
  simp [markFirstAvailable, h]

theorem markFirstAvailable_cons_neg (p : Key → Bool) (f : Key → Key)
    (a : Key) (as : List Key) (n : Nat) (h : p a = false) :
    markFirstAvailable p f (n + 1) (a :: as) = a :: markFirstAvailable p f (n + 1) as := by
  simp [markFirstAvailable, h]

theorem markKey_key_id (m s : String) (add : List String) (k : Key) :
    (markKey m s add k).key_id = k.key_id := rfl

theorem toAPIKey_markKey (m s : String) (add : List String) (k : Key) :
    toAPIKey (markKey m s add k) = toAPIKey k := rfl

theorem toAPIKey_key_id (k : Key) : (toAPIKey k).key_id = k.key_id := rfl

theorem markFirstAvailable_map_key_id (p : Key → Bool) (f : Key → Key)
    (hf : ∀ k, (f k).key_id = k.key_id) (l : List Key) :
    ∀ n, (markFirstAvailable p f n l).map Key.key_id = l.map Key.key_id := by
  induction l with
  | nil => intro n; cases n <;> simp [markFirstAvailable]
  | cons a as ih =>
      intro n
      cases n with
      | zero => simp [markFirstAvailable]
      | succ m =>
          by_cases hp : p a
          · simp [markFirstAvailable, hp, hf, ih m]
          · simp [markFirstAvailable, hp, ih (m + 1)]

theorem mem_markFirstAvailable_of_not_pred (p : Key → Bool) (f : Key → Key)
    (k : Key) (hk : p k = false) (l : List Key) :
    ∀ n, k ∈ l → k ∈ markFirstAvailable p f n l := by
  induction l with
  | nil => intro n h; simp at h
  | cons a as ih =>
      intro n hmem
      cases n with
      | zero => simpa [markFirstAvailable] using hmem
      | succ m =>
          rcases List.mem_cons.mp hmem with h | h
          · subst h
            rw [markFirstAvailable_cons_neg p f k as m hk]
            exact List.mem_cons_self k _
          · rcases Bool.eq_false_or_eq_true (p a) with hp | hp
            · rw [markFirstAvailable_cons_pos p f a as m hp]
              exact List.mem_cons_of_mem _ (ih m h)
            · rw [markFirstAvailable_cons_neg p f a as m hp]
              exact List.mem_cons_of_mem _ (ih (m + 1) h)

theorem mem_markFirstAvailable_elim (p : Key → Bool) (f : Key → Key)
    (k : Key) (l : List Key) :
    ∀ n, k ∈ markFirstAvailable p f n l →
      k ∈ l ∨ ∃ x ∈ l, p x = true ∧ k = f x := by
  induction l with
  | nil => intro n h; cases n <;> simp [markFirstAvailable] at h
  | cons a as ih =>
      intro n hmem
      cases n with
      | zero => exact Or.inl (by simpa [markFirstAvailable] using hmem)
      | succ m =>
          rcases Bool.eq_false_or_eq_true (p a) with hp | hp
          · rw [markFirstAvailable_cons_pos p f a as m hp] at hmem
            rcases List.mem_cons.mp hmem with h | h
            · exact Or.inr ⟨a, List.mem_cons_self a as, hp, h⟩
            · rcases ih m h with h2 | ⟨x, hx, hpx, hkx⟩
              · exact Or.inl (List.mem_cons_of_mem _ h2)
              · exact Or.inr ⟨x, List.mem_cons_of_mem _ hx, hpx, hkx⟩
          · rw [markFirstAvailable_cons_neg p f a as m hp] at hmem
            rcases List.mem_cons.mp hmem with h | h
            · exact Or.inl (by simp [h])
            · rcases ih (m + 1) h with h2 | ⟨x, hx, hpx, hkx⟩
              · exact Or.inl (List.mem_cons_of_mem _ h2)
              · exact Or.inr ⟨x, List.mem_cons_of_mem _ hx, hpx, hkx⟩

theorem findKey_cons_of_eq (k : Key) (l : List Key) (id : String)
    (h : k.key_id = id) : findKey (k :: l) id = some k := by
  simp [findKey, List.find?_cons_of_pos, h]

theorem findKey_cons_of_ne (k : Key) (l : List Key) (id : String)
    (h : ¬ k.key_id = id) : findKey (k :: l) id = findKey l id := by
  unfold findKey
  rw [List.find?_cons_of_neg]
  simpa using h

theorem findKey_markFirstAvailable (p : Key → Bool) (f : Key → Key)
    (hf : ∀ k, (f k).key_id = k.key_id) (k : Key) (l : List Key) :
    ∀ n, (l.map Key.key_id).Nodup → k ∈ (l.filter p).take n →
      findKey (markFirstAvailable p f n l) k.key_id = some (f k) := by
  induction l with
  | nil => intro n _ h; simp at h
  | cons a as ih =>
      intro n hnd hmem
      have hnd2 : (as.map Key.key_id).Nodup := (List.nodup_cons.mp hnd).2
      have hnotmem : a.key_id ∉ as.map Key.key_id := (List.nodup_cons.mp hnd).1
      cases n with
      | zero => simp at hmem
      | succ m =>
          rcases Bool.eq_false_or_eq_true (p a) with hp | hp
          · rw [List.filter_cons_of_pos hp, List.take_succ_cons] at hmem
            rw [markFirstAvailable_cons_pos p f a as m hp]
            rcases List.mem_cons.mp hmem with h | h
            · subst h
              exact findKey_cons_of_eq _ _ _ (hf k)
            · have hkas : k ∈ as :=
                (List.mem_filter.mp (List.mem_of_mem_take h)).1
              have hne : ¬ (f a).key_id = k.key_id := by
                rw [hf a]
                intro hEq
                exact hnotmem (hEq ▸ List.mem_map_of_mem Key.key_id hkas)
              rw [findKey_cons_of_ne _ _ _ hne]
              exact ih m hnd2 h
          · rw [List.filter_cons_of_neg (by simp [hp])] at hmem
            rw [markFirstAvailable_cons_neg p f a as m hp]
            have hkas : k ∈ as :=
              (List.mem_filter.mp (List.mem_of_mem_take hmem)).1
            have hne : ¬ a.key_id = k.key_id := by
              intro hEq
              exact hnotmem (hEq ▸ List.mem_map_of_mem Key.key_id hkas)
            rw [findKey_cons_of_ne _ _ _ hne]
            exact ih (m + 1) hnd2 hmem

/-! ## Lemmas about key generation and pool refill -/

theorem generate_keys_length (supply : Nat → String × String)
    (start n size : Nat) : (generate_keys supply start n size).length = n := by
  simp [generate_keys]

theorem mem_generate_keys (supply : Nat → String × String)
    (start n size : Nat) (k : Key) (h : k ∈ generate_keys supply start n size) :
    k.is_used = false ∧ k.master_sae_id = none ∧ k.key_size = size ∧
    ∃ i, i < n ∧ k.key_id = (supply (start + i)).1 := by
  simp only [generate_keys, generate_key, List.mem_map, List.mem_range] at h
  obtain ⟨i, hi, hk⟩ := h
  subst hk
  exact ⟨rfl, rfl, rfl, i, hi, rfl⟩

theorem generate_keys_map_key_id (supply : Nat → String × String)
    (start n size : Nat) :
    (generate_keys supply start n size).map Key.key_id =
      (List.range n).map (fun i => (supply (start + i)).1) := by
  simp [generate_keys, generate_key]

theorem generate_keys_nodup (supply : Nat → String × String)
    (hinj : ∀ i j, (supply i).1 = (supply j).1 → i = j)
    (start n size : Nat) :
    ((generate_keys supply start n size).map Key.key_id).Nodup := by
  rw [generate_keys_map_key_id]
  refine List.Nodup.map_on ?_ (List.nodup_range n)
  intro i _ j _ h
  have := hinj (start + i) (start + j) h
  omega

theorem refill_of_ge (supply : Nat → String × String) (w : World)
    (h : w.storage.key_pool.refill_threshold ≤ w.storage.key_pool.current_size) :
    refill_key_pool supply w = w := by
  simp [refill_key_pool, h]

theorem refill_of_lt (supply : Nat → String × String) (w : World)
    (h : w.storage.key_pool.current_size < w.storage.key_pool.refill_threshold) :
    refill_key_pool supply w =
      { storage :=
          { w.storage with
              keys := w.storage.keys ++ generate_keys supply w.genCount
                (w.storage.key_pool.max_size - w.storage.key_pool.current_size)
                w.storage.key_pool.key_size
              key_pool := { w.storage.key_pool with
                current_size := (w.storage.keys ++ generate_keys supply w.genCount
                  (w.storage.key_pool.max_size - w.storage.key_pool.current_size)
                  w.storage.key_pool.key_size).length } }
        genCount := w.genCount +
          (w.storage.key_pool.max_size - w.storage.key_pool.current_size) } := by
  rw [refill_key_pool]
  simp only []
  rw [if_neg (by omega)]

theorem refill_keys_mem (supply : Nat → String × String) (w : World) (k : Key)
    (h : k ∈ w.storage.keys) : k ∈ (refill_key_pool supply w).storage.keys := by
  by_cases hc : w.storage.key_pool.refill_threshold ≤ w.storage.key_pool.current_size
  · rw [refill_of_ge supply w hc]; exact h
  · rw [refill_of_lt supply w (by omega)]
    exact List.mem_append_left _ h

theorem refill_keys_elim (supply : Nat → String × String) (w : World) (k : Key)
    (h : k ∈ (refill_key_pool supply w).storage.keys) :
    k ∈ w.storage.keys ∨ (k.is_used = false ∧ k.master_sae_id = none) := by
  by_cases hc : w.storage.key_pool.refill_threshold ≤ w.storage.key_pool.current_size
  · rw [refill_of_ge supply w hc] at h; exact Or.inl h
  · rw [refill_of_lt supply w (by omega)] at h
    rcases List.mem_append.mp h with h2 | h2
    · exact Or.inl h2
    · have := mem_generate_keys _ _ _ _ _ h2
      exact Or.inr ⟨this.1, this.2.1⟩

theorem refill_genCount_le (supply : Nat → String × String) (w : World) :
    w.genCount ≤ (refill_key_pool supply w).genCount := by
  by_cases hc : w.storage.key_pool.refill_threshold ≤ w.storage.key_pool.current_size
  · rw [refill_of_ge supply w hc]
  · rw [refill_of_lt supply w (by omega)]
    exact Nat.le_add_right _ _

theorem reachInv_refill (supply : Nat → String × String)
    (hinj : ∀ i j, (supply i).1 = (supply j).1 → i = j)
    (w : World) (hw : ReachInv supply w) :
    ReachInv supply (refill_key_pool supply w) := by
  by_cases hc : w.storage.key_pool.refill_threshold ≤ w.storage.key_pool.current_size
  · rw [refill_of_ge supply w hc]; exact hw
  · rw [refill_of_lt supply w (by omega)]
    obtain ⟨hnd, hcov⟩ := hw
    constructor
    · simp only [List.map_append]
      rw [List.nodup_append]
      refine ⟨hnd, generate_keys_nodup supply hinj _ _ _, ?_⟩
      intro id hidOld hidNew
      rw [List.mem_map] at hidOld hidNew
      obtain ⟨k1, hk1, hk1id⟩ := hidOld
      obtain ⟨k2, hk2, hk2id⟩ := hidNew
      obtain ⟨i, hi, hisup⟩ := hcov k1 hk1
      obtain ⟨_, _, _, j, hj, hk2sup⟩ := mem_generate_keys _ _ _ _ _ hk2
      have hEq : (supply i).1 = (supply (w.genCount + j)).1 := by
        rw [hisup, hk1id, ← hk2id, hk2sup]
      have := hinj _ _ hEq
      omega
    · intro k hk
      dsimp only at hk ⊢
      rcases List.mem_append.mp hk with h2 | h2
      · obtain ⟨i, hi, hisup⟩ := hcov k h2
        exact ⟨i, by omega, hisup⟩
      · obtain ⟨_, _, _, j, hj, hksup⟩ := mem_generate_keys _ _ _ _ _ h2
        exact ⟨w.genCount + j, by omega, hksup.symm⟩

/-! ## Shape lemmas for the allocate operation -/

theorem alloc_of_validationFails (st : Settings) (supply : Nat → String × String)
    (m s : String) (req : KeyRequest) (w : World)
    (hv : validationFails st req = true) :
    get_keys_for_master_sae st supply m s req w = (.error .validation, w) := by
  unfold get_keys_for_master_sae
  rw [if_pos hv]

theorem alloc_of_exhausted (st : Settings) (supply : Nat → String × String)
    (m s : String) (req : KeyRequest) (w : World)
    (hv : validationFails st req = false)
    (ha : ((refill_key_pool supply w).storage.keys.filter availPred).length < req.number) :
    get_keys_for_master_sae st supply m s req w =
      (.error .poolExhausted, refill_key_pool supply w) := by
  unfold get_keys_for_master_sae
  rw [if_neg (by simp [hv])]
  dsimp only
  rw [if_pos ha]

theorem alloc_ok_elim {st : Settings} {supply : Nat → String × String}
    {m s : String} {req : KeyRequest} {w : World} {c : KeyContainer} {w2 : World}
    (h : get_keys_for_master_sae st supply m s req w = (.ok c, w2)) :
    validationFails st req = false ∧
    req.number ≤ ((refill_key_pool supply w).storage.keys.filter availPred).length ∧
    c = { keys := (allocSelected supply req w).map toAPIKey
          key_number := (allocSelected supply req w).length
          key_size := sizeOrDefault st req } ∧
    w2 = { storage :=
             { keys := allocMark m s req (refill_key_pool supply w).storage.keys
               sessions := (refill_key_pool supply w).storage.sessions ++
                 [allocSession m s req (allocSelected supply req w)]
               sae_registry := (refill_key_pool supply w).storage.sae_registry
               key_pool := (refill_key_pool supply w).storage.key_pool }
           genCount := (refill_key_pool supply w).genCount } := by
  unfold get_keys_for_master_sae at h
  by_cases hv : validationFails st req = true
  · rw [if_pos hv] at h
    simp at h
  · rw [if_neg hv] at h
    dsimp only at h
    by_cases ha : ((refill_key_pool supply w).storage.keys.filter availPred).length < req.number
    · rw [if_pos ha] at h
      simp at h
    · rw [if_neg ha] at h
      simp only [Prod.mk.injEq, Except.ok.injEq] at h
      refine ⟨by simpa using hv, by omega, h.1.symm, h.2.symm⟩

theorem mem_allocSelected (supply : Nat → String × String) (req : KeyRequest)
    (w : World) (k : Key) (hk : k ∈ allocSelected supply req w) :
    k ∈ (refill_key_pool supply w).storage.keys ∧ availPred k = true := by
  unfold allocSelected at hk
  have := List.mem_filter.mp (List.mem_of_mem_take hk)
  exact ⟨this.1, this.2⟩

theorem allocSelected_nodup (supply : Nat → String × String) (req : KeyRequest)
    (w : World)
    (hnd : ((refill_key_pool supply w).storage.keys.map Key.key_id).Nodup) :
    ((allocSelected supply req w).map Key.key_id).Nodup := by
  unfold allocSelected
  refine List.Nodup.sublist ?_ hnd
  exact List.Sublist.map _ ((List.take_sublist _ _).trans (List.filter_sublist _))

theorem findKey_alloc_marked (supply : Nat → String × String)
    (m s : String) (req : KeyRequest) (w : World) (k : Key)
    (hnd : ((refill_key_pool supply w).storage.keys.map Key.key_id).Nodup)
    (hk : k ∈ allocSelected supply req w) :
    findKey (allocMark m s req (refill_key_pool supply w).storage.keys) k.key_id =
      some (markKey m s req.additional_slave_sae_ids k) := by
  unfold allocMark
  unfold allocSelected at hk
  exact findKey_markFirstAvailable availPred
    (markKey m s req.additional_slave_sae_ids)
    (fun x => rfl) k _ (reqTake req) hnd hk

theorem retrieve_world_id (slave_sae_id master_sae_id : String)
    (key_ids : List String) (w : World) :
    (get_keys_for_slave_sae slave_sae_id master_sae_id key_ids w).2 = w := by
  unfold get_keys_for_slave_sae
  rcases h : lookupKeys w.storage.keys slave_sae_id master_sae_id key_ids with e | ks <;>
    simp [h]

theorem alloc_keys_mem_used (st : Settings) (supply : Nat → String × String)
    (m s : String) (req : KeyRequest) (w : World) (k : Key)
    (hk : k ∈ w.storage.keys) (hu : k.is_used = true) :
    k ∈ ((get_keys_for_master_sae st supply m s req w).2).storage.keys := by
  unfold get_keys_for_master_sae
  by_cases hv : validationFails st req = true
  · rw [if_pos hv]; exact hk
  · rw [if_neg hv]
    dsimp only
    by_cases ha : ((refill_key_pool supply w).storage.keys.filter availPred).length < req.number
    · rw [if_pos ha]
      exact refill_keys_mem supply w k hk
    · rw [if_neg ha]
      dsimp only
      unfold allocMark
      exact mem_markFirstAvailable_of_not_pred availPred _ k
        (by simp [availPred, hu]) _ _ (refill_keys_mem supply w k hk)

theorem reachInv_alloc (st : Settings) (supply : Nat → String × String)
    (hinj : ∀ i j, (supply i).1 = (supply j).1 → i = j)
    (m s : String) (req : KeyRequest) (w : World) (hw : ReachInv supply w) :
    ReachInv supply ((get_keys_for_master_sae st supply m s req w).2) := by
  unfold get_keys_for_master_sae
  by_cases hv : validationFails st req = true
  · rw [if_pos hv]; exact hw
  · rw [if_neg hv]
    dsimp only
    have hw1 := reachInv_refill supply hinj w hw
    by_cases ha : ((refill_key_pool supply w).storage.keys.filter availPred).length < req.number
    · rw [if_pos ha]; exact hw1
    · rw [if_neg ha]
      dsimp only
      obtain ⟨hnd, hcov⟩ := hw1
      constructor
      · dsimp only
        unfold allocMark
        rw [markFirstAvailable_map_key_id availPred
          (markKey m s req.additional_slave_sae_ids) (fun x => rfl)]
        exact hnd
      · intro k hk
        dsimp only at hk ⊢
        unfold allocMark at hk
        rcases mem_markFirstAvailable_elim _ _ k _ _ hk with h2 | ⟨x, hx, _, hkx⟩
        · exact hcov k h2
        · obtain ⟨i, hi, hisup⟩ := hcov x hx
          refine ⟨i, hi, ?_⟩
          rw [hkx]
          exact hisup

theorem reachInv_runOp (st : Settings) (supply : Nat → String × String)
    (hinj : ∀ i j, (supply i).1 = (supply j).1 → i = j)
    (w : World) (op : Op) (hw : ReachInv supply w) :
    ReachInv supply (runOp st supply w op) := by
  cases op with
  | alloc m s req => exact reachInv_alloc st supply hinj m s req w hw
  | retl s m ids =>
      show ReachInv supply (get_keys_for_slave_sae s m ids w).2
      rw [retrieve_world_id]
      exact hw
  | refill => exact reachInv_refill supply hinj w hw

theorem used_key_runOp (st : Settings) (supply : Nat → String × String)
    (w : World) (op : Op) (k : Key)
    (hk : k ∈ w.storage.keys) (hu : k.is_used = true) :
    k ∈ (runOp st supply w op).storage.keys := by
  cases op with
  | alloc m s req => exact alloc_keys_mem_used st supply m s req w k hk hu
  | retl s m ids =>
      show k ∈ ((get_keys_for_slave_sae s m ids w).2).storage.keys
      rw [retrieve_world_id]
      exact hk
  | refill => exact refill_keys_mem supply w k hk

theorem reachInv_runTrace (st : Settings) (supply : Nat → String × String)
    (hinj : ∀ i j, (supply i).1 = (supply j).1 → i = j) (ops : List Op) :
    ∀ w, ReachInv supply w → ReachInv supply (runTrace st supply w ops) := by
  induction ops with
  | nil => intro w hw; exact hw
  | cons op rest ih =>
      intro w hw
      exact ih _ (reachInv_runOp st supply hinj w op hw)

theorem used_key_runTrace (st : Settings) (supply : Nat → String × String)
    (ops : List Op) (k : Key) (hu : k.is_used = true) :
    ∀ w, k ∈ w.storage.keys → k ∈ (runTrace st supply w ops).storage.keys := by
  induction ops with
  | nil => intro w hw; exact hw
  | cons op rest ih =>
      intro w hw
      exact ih _ (used_key_runOp st supply w op k hw hu)

/-! ## Lemmas about the retrieve lookup loop -/

theorem lookupKeys_ok_spec (keys : List Key) (slave master : String) :
    ∀ (ids : List String) (ks : List Key),
      lookupKeys keys slave master ids = .ok ks →
      ∀ id ∈ ids, ∃ k, findKey keys id = some k ∧
        k.slave_sae_ids.contains slave = true ∧ k.master_sae_id = some master := by
  intro ids
  induction ids with
  | nil => intro ks _ id hid; simp at hid
  | cons a rest ih =>
      intro ks h id hid
      simp only [lookupKeys] at h
      split at h
      · simp at h
      · rename_i k hf
        split at h
        · simp at h
        · split at h
          · simp at h
          · rename_i hs hm
            split at h
            · simp at h
            · rename_i ks2 hrec
              rcases List.mem_cons.mp hid with hEq | hmem
              · subst hEq
                refine ⟨k, hf, by simpa using hs, by simpa using hm⟩
              · exact ih ks2 hrec id hmem

theorem lookupKeys_missing (keys : List Key) (slave master : String) :
    ∀ ids : List String,
      (∃ id ∈ ids, findKey keys id = none) →
      (∀ id ∈ ids, ∀ k, findKey keys id = some k →
        k.slave_sae_ids.contains slave = true ∧ k.master_sae_id = some master) →
      lookupKeys keys slave master ids = .error .notFound := by
  intro ids
  induction ids with
  | nil => intro hmiss _; simp at hmiss
  | cons a rest ih =>
      intro hmiss hauth
      rcases hf : findKey keys a with _ | k
      · simp only [lookupKeys, hf]
      · have hka := hauth a (List.mem_cons_self a rest) k hf
        have hrest : ∃ id ∈ rest, findKey keys id = none := by
          obtain ⟨id, hid, hidnone⟩ := hmiss
          rcases List.mem_cons.mp hid with hEq | hmem
          · subst hEq
            rw [hf] at hidnone
            exact absurd hidnone (by simp)
          · exact ⟨id, hmem, hidnone⟩
        have hrec := ih hrest
          (fun id hid k2 hk2 => hauth id (List.mem_cons_of_mem a hid) k2 hk2)
        simp only [lookupKeys, hf, hka.1, hka.2, hrec]
        simp

theorem lookupKeys_mismatch (keys : List Key) (slave master : String) :
    ∀ ids : List String,
      (∀ id ∈ ids, (findKey keys id).isSome) →
      (∃ id ∈ ids, ∀ k, findKey keys id = some k →
        ¬(k.slave_sae_ids.contains slave = true ∧ k.master_sae_id = some master)) →
      lookupKeys keys slave master ids = .error .authorization := by
  intro ids
  induction ids with
  | nil => intro _ hbad; simp at hbad
  | cons a rest ih =>
      intro hfound hbad
      have hsome : (findKey keys a).isSome :=
        hfound a (List.mem_cons_self a rest)
      rcases hf : findKey keys a with _ | k
      · rw [hf] at hsome; simp at hsome
      · by_cases hs : k.slave_sae_ids.contains slave = true
        · by_cases hm : k.master_sae_id = some master
          · have hrest : ∃ id ∈ rest, ∀ k2, findKey keys id = some k2 →
                ¬(k2.slave_sae_ids.contains slave = true ∧
                  k2.master_sae_id = some master) := by
              obtain ⟨id, hid, hidbad⟩ := hbad
              rcases List.mem_cons.mp hid with hEq | hmem
              · subst hEq
                exact absurd ⟨hs, hm⟩ (hidbad k hf)
              · exact ⟨id, hmem, hidbad⟩
            have hrec := ih
              (fun id hid => hfound id (List.mem_cons_of_mem a hid)) hrest
            simp only [lookupKeys, hf, hs, hm, hrec]
            simp
          · simp only [lookupKeys, hf]
            rw [if_neg (by simpa using hs), if_pos hm]
        · simp only [lookupKeys, hf]
          rw [if_pos (by simpa using hs)]

theorem lookupKeys_map_ok (keys : List Key) (slave master : String)
    (f : Key → Key) :
    ∀ sel : List Key,
      (∀ k ∈ sel, findKey keys k.key_id = some (f k) ∧
        (f k).slave_sae_ids.contains slave = true ∧
        (f k).master_sae_id = some master) →
      lookupKeys keys slave master (sel.map Key.key_id) = .ok (sel.map f) := by
  intro sel
  induction sel with
  | nil => intro _; simp [lookupKeys]
  | cons k sel2 ih =>
      intro hall
      have hk := hall k (List.mem_cons_self k sel2)
      have hrec := ih (fun x hx => hall x (List.mem_cons_of_mem k hx))
      simp only [List.map_cons, lookupKeys, hk.1, hk.2.1, hk.2.2, hrec]
      simp

/-! ## Claim theorems -/

/-- C10: retrieval never consumes or modifies keys: a `retrieve` call
leaves the stored keys, sessions, SAE registry and key pool unchanged,
and repeating the same call on the resulting world returns the identical
result. -/
theorem c10_retrieve_no_writes (slave_sae_id master_sae_id : String)
    (key_ids : List String) (w : World) :
    ((get_keys_for_slave_sae slave_sae_id master_sae_id key_ids w).2).storage.keys =
      w.storage.keys ∧
    ((get_keys_for_slave_sae slave_sae_id master_sae_id key_ids w).2).storage.sessions =
      w.storage.sessions ∧
    ((get_keys_for_slave_sae slave_sae_id master_sae_id key_ids w).2).storage.sae_registry =
      w.storage.sae_registry ∧
    ((get_keys_for_slave_sae slave_sae_id master_sae_id key_ids w).2).storage.key_pool =
      w.storage.key_pool ∧
    get_keys_for_slave_sae slave_sae_id master_sae_id key_ids
        ((get_keys_for_slave_sae slave_sae_id master_sae_id key_ids w).2) =
      get_keys_for_slave_sae slave_sae_id master_sae_id key_ids w := by
  rw [retrieve_world_id]
  exact ⟨rfl, rfl, rfl, rfl, rfl⟩

/-- C3: a `retrieve` call succeeds only if every requested key exists,
lists the requester among its slave ids and has the counterpart as its
master; and if every id is found but some found key mismatches, the whole
call fails with the authorization error and returns no keys. -/
theorem c3_retrieve_authorization_predicate
    (slave_sae_id master_sae_id : String) (key_ids : List String) (w : World) :
    (∀ c w2,
      get_keys_for_slave_sae slave_sae_id master_sae_id key_ids w = (.ok c, w2) →
      ∀ id ∈ key_ids, ∃ k, findKey w.storage.keys id = some k ∧
        slave_sae_id ∈ k.slave_sae_ids ∧ k.master_sae_id = some master_sae_id) ∧
    ((∀ id ∈ key_ids, (findKey w.storage.keys id).isSome) →
     (∃ id ∈ key_ids, ∀ k, findKey w.storage.keys id = some k →
        ¬(slave_sae_id ∈ k.slave_sae_ids ∧ k.master_sae_id = some master_sae_id)) →
     get_keys_for_slave_sae slave_sae_id master_sae_id key_ids w =
       (.error .authorization, w)) := by
  constructor
  · intro c w2 h id hid
    unfold get_keys_for_slave_sae at h
    rcases hl : lookupKeys w.storage.keys slave_sae_id master_sae_id key_ids with e | ks
    · rw [hl] at h; simp at h
    · obtain ⟨k, hk1, hk2, hk3⟩ :=
        lookupKeys_ok_spec w.storage.keys slave_sae_id master_sae_id key_ids ks hl id hid
      exact ⟨k, hk1, by simpa using hk2, hk3⟩
  · intro hfound hbad
    have hbad2 : ∃ id ∈ key_ids, ∀ k, findKey w.storage.keys id = some k →
        ¬(k.slave_sae_ids.contains slave_sae_id = true ∧
          k.master_sae_id = some master_sae_id) := by
      obtain ⟨id, hid, hk⟩ := hbad
      exact ⟨id, hid, fun k hfk hcon =>
        hk k hfk ⟨by simpa using hcon.1, hcon.2⟩⟩
    have hl := lookupKeys_mismatch w.storage.keys slave_sae_id master_sae_id
      key_ids hfound hbad2
    simp only [get_keys_for_slave_sae, hl]

/-- C9: a `retrieve` call whose id list contains a missing id fails as a
whole with the not-found error and returns no keys, even when every other
id exists and is authorized for the requester. -/
theorem c9_retrieve_missing_id (slave_sae_id master_sae_id : String)
    (key_ids : List String) (w : World)
    (hmiss : ∃ id ∈ key_ids, findKey w.storage.keys id = none)
    (hothers : ∀ id ∈ key_ids, ∀ k, findKey w.storage.keys id = some k →
      slave_sae_id ∈ k.slave_sae_ids ∧ k.master_sae_id = some master_sae_id) :
    get_keys_for_slave_sae slave_sae_id master_sae_id key_ids w =
      (.error .notFound, w) := by
  have hl := lookupKeys_missing w.storage.keys slave_sae_id master_sae_id
    key_ids hmiss
    (fun id hid k hk =>
      ⟨by simpa using (hothers id hid k hk).1, (hothers id hid k hk).2⟩)
  simp only [get_keys_for_slave_sae, hl]

/-- C8: an `allocate` call that passes validation but finds fewer unused,
unassigned keys than requested after the refill step fails with the
pool-exhausted error, returns no keys, and no key is marked used or bound
by the failing call: the resulting world is exactly the refilled one, in
which every pre-existing key persists and every new key is unused and
unbound. -/
theorem c8_pool_exhaustion (st : Settings) (supply : Nat → String × String)
    (m s : String) (req : KeyRequest) (w : World)
    (hv : validationFails st req = false)
    (ha : ((refill_key_pool supply w).storage.keys.filter availPred).length <
      req.number) :
    get_keys_for_master_sae st supply m s req w =
      (.error .poolExhausted, refill_key_pool supply w) ∧
    (∀ k ∈ w.storage.keys, k ∈ (refill_key_pool supply w).storage.keys) ∧
    (∀ k ∈ (refill_key_pool supply w).storage.keys,
      k ∈ w.storage.keys ∨ (k.is_used = false ∧ k.master_sae_id = none)) :=
  ⟨alloc_of_exhausted st supply m s req w hv ha,
   fun k hk => refill_keys_mem supply w k hk,
   fun k hk => refill_keys_elim supply w k hk⟩

/-- C7: an `allocate` call violating any configured limit (count below 1,
size not a multiple of 8 or outside the configured bounds, count above the
per-request maximum, or too many additional slaves) fails with the
validation error class, distinct from every other error class, and leaves
the world unchanged. -/
theorem c7_validation_atomicity (st : Settings) (supply : Nat → String × String)
    (m s : String) (number size : Option Nat) (additional : List String)
    (w : World)
    (hviol : number.getD 1 < 1 ∨ ¬ (size.getD 256) % 8 = 0 ∨
      size.getD 256 < st.key_min_size ∨ st.key_max_size < size.getD 256 ∨
      st.max_key_per_request < number.getD 1 ∨
      st.max_sae_id_count < additional.length) :
    allocate_api st supply m s number size additional w =
      (.error .validation, w) := by
  unfold allocate_api mkKeyRequest
  dsimp only
  by_cases hn : number.getD 1 < 1
  · rw [if_pos hn]
  · rw [if_neg hn]
    by_cases hz : size.getD 256 < 8
    · rw [if_pos hz]
    · rw [if_neg hz]
      dsimp only
      apply alloc_of_validationFails
      simp only [validationFails, Option.any, Bool.or_eq_true,
        bne_iff_ne, decide_eq_true_eq]
      omega

/-- C6 counterexample: in `c6World` the unused-key count (0) is below the
refill threshold (5) and the pool is not at its maximum, yet
`refill_key_pool` changes nothing: the source gates the refill on the
stored `current_size` counter (here 10), not on the unused-key count, so
the claimed "whenever the unused count is below the threshold a refill
occurs" fails. -/
theorem c6_pool_refill_counterexample :
    availableKeyCount c6World.storage <
      c6World.storage.key_pool.refill_threshold ∧
    c6World.storage.key_pool.current_size <
      c6World.storage.key_pool.max_size ∧
    refill_key_pool wSupply c6World = c6World := by
  refine ⟨by decide, by decide, ?_⟩
  exact refill_of_ge wSupply c6World (by decide)

/-- C6 amended: `refill_key_pool` generates and appends exactly
`max_size - current_size` keys when the stored pool counter
`current_size` (total list length at the last refill, counting used
keys) is below `refill_threshold`, resetting the counter to the total
list length, and changes nothing otherwise; the trigger is the stored
counter, not the unused-key count. -/
theorem c6_pool_refill_amended (supply : Nat → String × String) (w : World) :
    (w.storage.key_pool.current_size < w.storage.key_pool.refill_threshold →
      (refill_key_pool supply w).storage.keys =
        w.storage.keys ++ generate_keys supply w.genCount
          (w.storage.key_pool.max_size - w.storage.key_pool.current_size)
          w.storage.key_pool.key_size ∧
      (refill_key_pool supply w).storage.keys.length =
        w.storage.keys.length +
          (w.storage.key_pool.max_size - w.storage.key_pool.current_size) ∧
      (refill_key_pool supply w).storage.key_pool.current_size =
        (refill_key_pool supply w).storage.keys.length) ∧
    (w.storage.key_pool.refill_threshold ≤ w.storage.key_pool.current_size →
      refill_key_pool supply w = w) := by
  constructor
  · intro h
    rw [refill_of_lt supply w h]
    refine ⟨rfl, ?_, rfl⟩
    dsimp only
    rw [List.length_append, generate_keys_length]
  · intro h
    exact refill_of_ge supply w h

theorem c6_pool_refill_amended_witness :
    ((refill_key_pool wSupply allocWorld).storage.keys =
        allocWorld.storage.keys ++ generate_keys wSupply allocWorld.genCount
          (allocWorld.storage.key_pool.max_size -
            allocWorld.storage.key_pool.current_size)
          allocWorld.storage.key_pool.key_size ∧
      (refill_key_pool wSupply allocWorld).storage.keys.length =
        allocWorld.storage.keys.length +
          (allocWorld.storage.key_pool.max_size -
            allocWorld.storage.key_pool.current_size) ∧
      (refill_key_pool wSupply allocWorld).storage.key_pool.current_size =
        (refill_key_pool wSupply allocWorld).storage.keys.length) ∧
    refill_key_pool wSupply c6World = c6World :=
  ⟨(c6_pool_refill_amended wSupply allocWorld).1 (by decide),
   (c6_pool_refill_amended wSupply c6World).2 (by decide)⟩

/-- C4 counterexample: `is_sae_authorized` returns true for slave S on
the list [idA, missing] although the id missing has no stored key (the
claim requires false), and the corresponding `retrieve` fails, so the
function is not the per-key conjunction of `retrieve` step 2; it also
returns true for the master M itself, which is in no slave list. -/
theorem c4_auth_engine_counterexample :
    is_sae_authorized retrieveWorld.storage "S" ["idA", "missing"] = true ∧
    findKey retrieveWorld.storage.keys "missing" = none ∧
    get_keys_for_slave_sae "S" "M" ["idA", "missing"] retrieveWorld =
      (.error .notFound, retrieveWorld) ∧
    is_sae_authorized retrieveWorld.storage "M" ["idA"] = true :=
  ⟨rfl, rfl, rfl, rfl⟩

/-- C4 amended: `is_sae_authorized` takes no master argument; it scans
the requested ids in order and returns true exactly when some id refers
to a stored key whose master is the caller or whose slave list contains
the caller, with every earlier id referring to an existing key that does
not authorize the caller; a missing id only forces false when it is
reached before such a key. -/
theorem c4_auth_engine_amended (stor : Storage) (sae_id : String)
    (ids : List String) :
    is_sae_authorized stor sae_id ids = true ↔
      ∃ pre id post, ids = pre ++ id :: post ∧
        (∀ a ∈ pre, ∃ k, findKey stor.keys a = some k ∧
          ¬(k.master_sae_id = some sae_id ∨ sae_id ∈ k.slave_sae_ids)) ∧
        (∃ k, findKey stor.keys id = some k ∧
          (k.master_sae_id = some sae_id ∨ sae_id ∈ k.slave_sae_ids)) := by
  induction ids with
  | nil =>
      rw [show is_sae_authorized stor sae_id [] = false from rfl]
      simp only [Bool.false_eq_true, false_iff]
      rintro ⟨pre, id, post, hsplit, -, -⟩
      exact absurd hsplit.symm (List.append_ne_nil_of_right_ne_nil pre
        (List.cons_ne_nil id post))
  | cons a rest ih =>
      rcases hf : findKey stor.keys a with _ | k
      · rw [show is_sae_authorized stor sae_id (a :: rest) = false from by
          simp [is_sae_authorized, hf]]
        simp only [Bool.false_eq_true, false_iff]
        rintro ⟨pre, id, post, hsplit, hpre, k2, hk2, -⟩
        cases pre with
        | nil =>
            simp only [List.nil_append, List.cons.injEq] at hsplit
            rw [← hsplit.1] at hk2
            rw [hf] at hk2
            exact absurd hk2 (by simp)
        | cons b pre2 =>
            simp only [List.cons_append, List.cons.injEq] at hsplit
            obtain ⟨k3, hk3, -⟩ :=
              hpre b (hsplit.1 ▸ List.mem_cons_self b pre2)
            rw [hsplit.1] at hf
            rw [hf] at hk3
            exact absurd hk3 (by simp)
      · by_cases hm : k.master_sae_id = some sae_id
        · rw [show is_sae_authorized stor sae_id (a :: rest) = true from by
            simp [is_sae_authorized, hf, hm]]
          simp only [true_iff]
          exact ⟨[], a, rest, rfl, by simp, k, hf, Or.inl hm⟩
        · by_cases hsl : sae_id ∈ k.slave_sae_ids
          · rw [show is_sae_authorized stor sae_id (a :: rest) = true from by
              simp [is_sae_authorized, hf, hm, hsl]]
            simp only [true_iff]
            exact ⟨[], a, rest, rfl, by simp, k, hf, Or.inr hsl⟩
          · rw [show is_sae_authorized stor sae_id (a :: rest) =
                is_sae_authorized stor sae_id rest from by
              simp [is_sae_authorized, hf, hm, hsl]]
            rw [ih]
            constructor
            · rintro ⟨pre, id, post, hsplit, hpre, hid⟩
              refine ⟨a :: pre, id, post, by rw [hsplit, List.cons_append], ?_, hid⟩
              intro b hb
              rcases List.mem_cons.mp hb with hEq | hmem
              · subst hEq
                exact ⟨k, hf, fun hor => hor.elim hm hsl⟩
              · exact hpre b hmem
            · rintro ⟨pre, id, post, hsplit, hpre, hid⟩
              cases pre with
              | nil =>
                  simp only [List.nil_append, List.cons.injEq] at hsplit
                  obtain ⟨k2, hk2, hauth2⟩ := hid
                  rw [← hsplit.1] at hk2
                  rw [hf] at hk2
                  have hkk : k = k2 := by
                    injection hk2 with h3
                  rw [← hkk] at hauth2
                  exact absurd hauth2 (fun hor => hor.elim hm hsl)
              | cons b pre2 =>
                  simp only [List.cons_append, List.cons.injEq] at hsplit
                  exact ⟨pre2, id, post, hsplit.2,
                    fun x hx => hpre x (List.mem_cons_of_mem b hx), hid⟩

theorem availPred_unused (k : Key) (h : availPred k = true) :
    k.is_used = false := by
  simp [availPred] at h
  exact h.1

theorem reachInv_allocWorld : ReachInv wSupply allocWorld :=
  ⟨List.nodup_nil, fun k hk => absurd hk (List.not_mem_nil k)⟩

/-- C5 counterexample: the allocation of one key of requested size 512
(valid: a multiple of 8 inside the configured bounds) from a pool that
holds a 256-bit key succeeds and returns that 256-bit key: the returned
key does not have the requested size; only the container metadata echoes
512. -/
theorem c5_allocation_size_counterexample :
    (get_keys_for_master_sae wSettings wSupply "M" "S"
        { number := 1, size := some 512, additional_slave_sae_ids := [] }
        c5World).1 =
      .ok { keys := [{ key_id := "idC", key_material := "matC", key_size := 256 }]
            key_number := 1
            key_size := 512 } ∧
    (256 : Nat) ≠ 512 :=
  ⟨rfl, by decide⟩

/-- C5 amended: a successful allocation of n ≥ 1 keys from a reachable
world returns exactly n keys with pairwise-distinct ids, none of which
was marked used before the call, and each returned key is the projection
of a stored unused pool key, so its size is that pool key's stored size
rather than the requested size. -/
theorem c5_allocation_response_amended (st : Settings)
    (supply : Nat → String × String)
    (hinj : ∀ i j, (supply i).1 = (supply j).1 → i = j)
    (m s : String) (req : KeyRequest) (w : World) (c : KeyContainer)
    (w2 : World) (hw : ReachInv supply w) (hn : 1 ≤ req.number)
    (h : get_keys_for_master_sae st supply m s req w = (.ok c, w2)) :
    c.keys.length = req.number ∧
    (c.keys.map APIKey.key_id).Nodup ∧
    (∀ a ∈ c.keys, ∀ k ∈ w.storage.keys, k.key_id = a.key_id →
      k.is_used = false) ∧
    (∀ a ∈ c.keys, ∃ k ∈ (refill_key_pool supply w).storage.keys,
      toAPIKey k = a ∧ availPred k = true) := by
  obtain ⟨hv, ha, hc, hw2⟩ := alloc_ok_elim h
  have hnd1 : ((refill_key_pool supply w).storage.keys.map Key.key_id).Nodup :=
    (reachInv_refill supply hinj w hw).1
  subst hc
  refine ⟨?_, ?_, ?_, ?_⟩
  · dsimp only
    rw [List.length_map]
    unfold allocSelected
    rw [List.length_take]
    have hrt : reqTake req = req.number := by
      unfold reqTake
      rw [if_neg (by omega)]
    rw [hrt]
    exact Nat.min_eq_left ha
  · dsimp only
    rw [List.map_map]
    exact allocSelected_nodup supply req w hnd1
  · dsimp only
    intro a ha2 k hk hkid
    rw [List.mem_map] at ha2
    obtain ⟨k1, hk1sel, hk1a⟩ := ha2
    obtain ⟨hk1mem, hk1avail⟩ := mem_allocSelected supply req w k1 hk1sel
    have hkmem1 : k ∈ (refill_key_pool supply w).storage.keys :=
      refill_keys_mem supply w k hk
    have hk1id : k1.key_id = a.key_id := by rw [← hk1a]; rfl
    have hkk : k = k1 :=
      List.inj_on_of_nodup_map hnd1 hkmem1 hk1mem (by rw [hkid, ← hk1id])
    rw [hkk]
    exact availPred_unused k1 hk1avail
  · dsimp only
    intro a ha2
    rw [List.mem_map] at ha2
    obtain ⟨k1, hk1sel, hk1a⟩ := ha2
    obtain ⟨hk1mem, hk1avail⟩ := mem_allocSelected supply req w k1 hk1sel
    exact ⟨k1, hk1mem, hk1a, hk1avail⟩

theorem c5_allocation_response_amended_witness :
    allocC.keys.length = reqA.number ∧
    (allocC.keys.map APIKey.key_id).Nodup ∧
    (∀ a ∈ allocC.keys, ∀ k ∈ allocWorld.storage.keys, k.key_id = a.key_id →
      k.is_used = false) ∧
    (∀ a ∈ allocC.keys, ∃ k ∈ (refill_key_pool wSupply allocWorld).storage.keys,
      toAPIKey k = a ∧ availPred k = true) :=
  c5_allocation_response_amended wSettings wSupply wSupply_inj "M1" "S1"
    reqA allocWorld allocC allocWorld1 reachInv_allocWorld (by decide) rfl

theorem c3_retrieve_authorization_predicate_witness :
    (∀ id ∈ ["idA"], ∃ k, findKey retrieveWorld.storage.keys id = some k ∧
      "S" ∈ k.slave_sae_ids ∧ k.master_sae_id = some "M") ∧
    get_keys_for_slave_sae "X" "M" ["idA"] retrieveWorld =
      (.error .authorization, retrieveWorld) := by
  constructor
  · exact (c3_retrieve_authorization_predicate "S" "M" ["idA"] retrieveWorld).1
      { keys := [{ key_id := "idA", key_material := "matA", key_size := 256 }]
        key_number := 1, key_size := 256 } retrieveWorld rfl
  · refine (c3_retrieve_authorization_predicate "X" "M" ["idA"] retrieveWorld).2
      (by decide) ⟨"idA", by decide, ?_⟩
    intro k hk
    rw [show findKey retrieveWorld.storage.keys "idA" = some kA from rfl] at hk
    have hkk : kA = k := by injection hk
    rw [← hkk]
    decide

theorem c9_retrieve_missing_id_witness :
    get_keys_for_slave_sae "S" "M" ["idA", "missing"] retrieveWorld =
      (.error .notFound, retrieveWorld) := by
  refine c9_retrieve_missing_id "S" "M" ["idA", "missing"] retrieveWorld
    ⟨"missing", by decide, rfl⟩ ?_
  intro id hid k hk
  rcases List.mem_cons.mp hid with hEq | hid2
  · subst hEq
    rw [show findKey retrieveWorld.storage.keys "idA" = some kA from rfl] at hk
    have hkk : kA = k := by injection hk
    rw [← hkk]
    decide
  · rcases List.mem_cons.mp hid2 with hEq | hid3
    · subst hEq
      rw [show findKey retrieveWorld.storage.keys "missing" = none from rfl] at hk
      exact absurd hk (by simp)
    · exact absurd hid3 (List.not_mem_nil id)

theorem c8_pool_exhaustion_witness :
    get_keys_for_master_sae wSettings wSupply "M" "S" reqB exhaustedWorld =
      (.error .poolExhausted, refill_key_pool wSupply exhaustedWorld) ∧
    (∀ k ∈ exhaustedWorld.storage.keys,
      k ∈ (refill_key_pool wSupply exhaustedWorld).storage.keys) ∧
    (∀ k ∈ (refill_key_pool wSupply exhaustedWorld).storage.keys,
      k ∈ exhaustedWorld.storage.keys ∨
        (k.is_used = false ∧ k.master_sae_id = none)) :=
  c8_pool_exhaustion wSettings wSupply "M" "S" reqB exhaustedWorld
    (by decide) (by decide)

theorem c7_validation_atomicity_witness :
    allocate_api wSettings wSupply "M" "S" (some 0) (some 256) [] exhaustedWorld =
      (.error .validation, exhaustedWorld) ∧
    allocate_api wSettings wSupply "M" "S" (some 1) (some 257) [] exhaustedWorld =
      (.error .validation, exhaustedWorld) :=
  ⟨c7_validation_atomicity wSettings wSupply "M" "S" (some 0) (some 256) []
     exhaustedWorld (Or.inl (by decide)),
   c7_validation_atomicity wSettings wSupply "M" "S" (some 1) (some 257) []
     exhaustedWorld (Or.inr (Or.inl (by decide)))⟩

theorem retrieve_of_lookup_ok (slave_sae_id master_sae_id : String)
    (key_ids : List String) (w : World) (ks : List Key)
    (hl : lookupKeys w.storage.keys slave_sae_id master_sae_id key_ids = .ok ks) :
    get_keys_for_slave_sae slave_sae_id master_sae_id key_ids w =
      (.ok { keys := ks.map toAPIKey, key_number := ks.length,
             key_size := (ks.head?.map Key.key_size).getD 256 }, w) := by
  unfold get_keys_for_slave_sae
  simp only [hl]

/-- C2: after a successful allocation binding a key set to the master M
and the slave set [S] plus the additional slaves, a retrieve by any slave
in that set, with counterpart M and the returned key ids, succeeds from
the post-allocation world and returns the byte-identical key list
(identical ids, material and sizes, in the same order). -/
theorem c2_allocate_retrieve_roundtrip (st : Settings)
    (supply : Nat → String × String)
    (hinj : ∀ i j, (supply i).1 = (supply j).1 → i = j)
    (m s : String) (req : KeyRequest) (w : World) (c : KeyContainer)
    (w2 : World) (hw : ReachInv supply w)
    (h : get_keys_for_master_sae st supply m s req w = (.ok c, w2))
    (x : String) (hx : x ∈ s :: req.additional_slave_sae_ids) :
    ∃ c2, get_keys_for_slave_sae x m (c.keys.map APIKey.key_id) w2 =
        (.ok c2, w2) ∧ c2.keys = c.keys := by
  obtain ⟨hv, ha, hc, hw2⟩ := alloc_ok_elim h
  have hnd1 : ((refill_key_pool supply w).storage.keys.map Key.key_id).Nodup :=
    (reachInv_refill supply hinj w hw).1
  have hckeys : c.keys = (allocSelected supply req w).map toAPIKey := by
    rw [hc]
  have hw2keys : w2.storage.keys =
      allocMark m s req (refill_key_pool supply w).storage.keys := by
    rw [hw2]
  have hids : c.keys.map APIKey.key_id =
      (allocSelected supply req w).map Key.key_id := by
    rw [hckeys, List.map_map]
    rfl
  have hlook : lookupKeys w2.storage.keys x m
      ((allocSelected supply req w).map Key.key_id) =
      .ok ((allocSelected supply req w).map
        (markKey m s req.additional_slave_sae_ids)) := by
    rw [hw2keys]
    apply lookupKeys_map_ok
    intro k hk
    refine ⟨findKey_alloc_marked supply m s req w k hnd1 hk, ?_, rfl⟩
    show ((markKey m s req.additional_slave_sae_ids k).slave_sae_ids).contains x = true
    simpa [markKey] using hx
  refine ⟨{ keys := (((allocSelected supply req w).map
                (markKey m s req.additional_slave_sae_ids)).map toAPIKey),
            key_number := (((allocSelected supply req w).map
                (markKey m s req.additional_slave_sae_ids)).length),
            key_size := (((((allocSelected supply req w).map
                (markKey m s req.additional_slave_sae_ids)).head?).map
                  Key.key_size).getD 256) }, ?_, ?_⟩
  · rw [hids]
    exact retrieve_of_lookup_ok x m _ w2 _ hlook
  · show (((allocSelected supply req w).map
      (markKey m s req.additional_slave_sae_ids)).map toAPIKey) = c.keys
    rw [hckeys, List.map_map]
    rfl

theorem c2_allocate_retrieve_roundtrip_witness :
    ∃ c2, get_keys_for_slave_sae "S1b" "M1" (allocC.keys.map APIKey.key_id)
        allocWorld1 = (.ok c2, allocWorld1) ∧ c2.keys = allocC.keys :=
  c2_allocate_retrieve_roundtrip wSettings wSupply wSupply_inj "M1" "S1"
    reqA allocWorld allocC allocWorld1 reachInv_allocWorld rfl "S1b" (by decide)

/-- C1: exclusivity invariant.  Starting from a reachable world, if one
allocation succeeds and, after any further sequence of service calls,
another allocation succeeds, then no key id returned by the first is
returned by the second, and every key returned by the first is still
stored after the second call as a used key bound to the first call's
master and slave set: the selection predicate (unused and unassigned)
never re-selects a previously allocated key. -/
theorem c1_allocate_exclusivity (st : Settings)
    (supply : Nat → String × String)
    (hinj : ∀ i j, (supply i).1 = (supply j).1 → i = j)
    (w0 : World) (hw : ReachInv supply w0)
    (m1 s1 : String) (r1 : KeyRequest) (c1 : KeyContainer) (w1 : World)
    (h1 : get_keys_for_master_sae st supply m1 s1 r1 w0 = (.ok c1, w1))
    (ops : List Op) (m2 s2 : String) (r2 : KeyRequest) (c2 : KeyContainer)
    (w3 : World)
    (h2 : get_keys_for_master_sae st supply m2 s2 r2
      (runTrace st supply w1 ops) = (.ok c2, w3)) :
    (∀ id ∈ c1.keys.map APIKey.key_id, id ∉ c2.keys.map APIKey.key_id) ∧
    (∀ id ∈ c1.keys.map APIKey.key_id, ∃ k ∈ w3.storage.keys,
      k.key_id = id ∧ k.is_used = true ∧ k.master_sae_id = some m1 ∧
      k.slave_sae_ids = s1 :: r1.additional_slave_sae_ids) := by
  obtain ⟨hv1, ha1, hc1, hw1⟩ := alloc_ok_elim h1
  have hnd0 : ((refill_key_pool supply w0).storage.keys.map Key.key_id).Nodup :=
    (reachInv_refill supply hinj w0 hw).1
  have hc1ids : c1.keys.map APIKey.key_id =
      (allocSelected supply r1 w0).map Key.key_id := by
    rw [hc1]
    show ((allocSelected supply r1 w0).map toAPIKey).map APIKey.key_id = _
    rw [List.map_map]
    rfl
  have hw1keys : w1.storage.keys =
      allocMark m1 s1 r1 (refill_key_pool supply w0).storage.keys := by
    rw [hw1]
  have hReach1 : ReachInv supply w1 := by
    have hr := reachInv_alloc st supply hinj m1 s1 r1 w0 hw
    rw [h1] at hr
    exact hr
  have hReach2 : ReachInv supply (runTrace st supply w1 ops) :=
    reachInv_runTrace st supply hinj ops w1 hReach1
  obtain ⟨hv2, ha2, hc2, hw3⟩ := alloc_ok_elim h2
  have hnd2 : (((refill_key_pool supply
      (runTrace st supply w1 ops)).storage.keys).map Key.key_id).Nodup :=
    (reachInv_refill supply hinj _ hReach2).1
  have hc2ids : c2.keys.map APIKey.key_id =
      (allocSelected supply r2 (runTrace st supply w1 ops)).map Key.key_id := by
    rw [hc2]
    show ((allocSelected supply r2 (runTrace st supply w1 ops)).map
      toAPIKey).map APIKey.key_id = _
    rw [List.map_map]
    rfl
  have hmk1 : ∀ id ∈ c1.keys.map APIKey.key_id, ∃ k1,
      k1 ∈ allocSelected supply r1 w0 ∧ k1.key_id = id ∧
      markKey m1 s1 r1.additional_slave_sae_ids k1 ∈ w1.storage.keys := by
    intro id hid
    rw [hc1ids] at hid
    obtain ⟨k1, hk1sel, hk1id⟩ := List.mem_map.mp hid
    refine ⟨k1, hk1sel, hk1id, ?_⟩
    rw [hw1keys]
    exact List.mem_of_find?_eq_some
      (findKey_alloc_marked supply m1 s1 r1 w0 k1 hnd0 hk1sel)
  constructor
  · intro id hid1 hid2
    obtain ⟨k1, hk1sel, hk1id, hk1w1⟩ := hmk1 id hid1
    rw [hc2ids] at hid2
    obtain ⟨k2, hk2sel, hk2id⟩ := List.mem_map.mp hid2
    obtain ⟨hk2mem, hk2avail⟩ :=
      mem_allocSelected supply r2 (runTrace st supply w1 ops) k2 hk2sel
    have hk1w2 : markKey m1 s1 r1.additional_slave_sae_ids k1 ∈
        (runTrace st supply w1 ops).storage.keys :=
      used_key_runTrace st supply ops _ rfl w1 hk1w1
    have hk1w2r : markKey m1 s1 r1.additional_slave_sae_ids k1 ∈
        (refill_key_pool supply (runTrace st supply w1 ops)).storage.keys :=
      refill_keys_mem supply _ _ hk1w2
    have hEqk : markKey m1 s1 r1.additional_slave_sae_ids k1 = k2 := by
      apply List.inj_on_of_nodup_map hnd2 hk1w2r hk2mem
      show k1.key_id = k2.key_id
      rw [hk1id, hk2id]
    have hbad : availPred (markKey m1 s1 r1.additional_slave_sae_ids k1) = true := by
      rw [hEqk]
      exact hk2avail
    simp [availPred, markKey] at hbad
  · intro id hid1
    obtain ⟨k1, hk1sel, hk1id, hk1w1⟩ := hmk1 id hid1
    have hk1w2 : markKey m1 s1 r1.additional_slave_sae_ids k1 ∈
        (runTrace st supply w1 ops).storage.keys :=
      used_key_runTrace st supply ops _ rfl w1 hk1w1
    have hk1w3 : markKey m1 s1 r1.additional_slave_sae_ids k1 ∈
        w3.storage.keys := by
      have hm := alloc_keys_mem_used st supply m2 s2 r2
        (runTrace st supply w1 ops) _ hk1w2 rfl
      rw [h2] at hm
      exact hm
    exact ⟨markKey m1 s1 r1.additional_slave_sae_ids k1, hk1w3,
      hk1id, rfl, rfl, rfl⟩

theorem c1_allocate_exclusivity_witness :
    (∀ id ∈ allocC.keys.map APIKey.key_id,
      id ∉ allocC2.keys.map APIKey.key_id) ∧
    (∀ id ∈ allocC.keys.map APIKey.key_id, ∃ k ∈ allocWorld2.storage.keys,
      k.key_id = id ∧ k.is_used = true ∧ k.master_sae_id = some "M1" ∧
      k.slave_sae_ids = "S1" :: reqA.additional_slave_sae_ids) :=
  c1_allocate_exclusivity wSettings wSupply wSupply_inj allocWorld
    reachInv_allocWorld "M1" "S1" reqA allocC allocWorld1 rfl []
    "M2" "S2" reqB allocC2 allocWorld2 rfl
